import Mathlib

/-!
# Verification of the `y0under/renderer` Vulkan renderer core

Shallow embedding of the decision logic of the renderer:

* `src/gfx/Swapchain.*` : surface-format / present-mode / extent / image-count
  negotiation (`choose_surface_format`, `choose_extent`, `create_swapchain`);
* `src/gfx/Context.*`   : physical-device selection (`find_queue_families`,
  `pick_physical_device`);
* `src/gfx/Buffer.cc`, `src/gfx/Image.cc` : memory-type selection
  (`find_memory_type`) and handle teardown (`Buffer::shutdown`);
* `src/gfx/Pipeline.*`  : SPIR-V loading (`read_spirv`) and the failure
  behaviour of `Pipeline::init`;
* `src/gfx/Renderer.*`  : the `draw_frame` protocol (ring-slot fences,
  acquire / record / submit / present / recreate), with the Vulkan driver
  outcomes (`VkResult` of acquire and present) supplied as an environment
  and the issued GPU-API work captured as an event trace;
* `src/assets/ObjLoader.cc` : the OBJ mesh loader.

Vulkan handles are modelled by option-wrapped tokens, machine integers by
`Nat` (with explicit `% 2^32` where 32-bit wrap matters), fallible C++ code
(which throws `std::runtime_error`) by `Except String`.
-/

/-! ## Swapchain negotiation (src/gfx/Swapchain.cc) -/

/-- `VkSurfaceFormatKHR`: a pixel format paired with a colour space.
The Vulkan enum values are modelled as `Nat`. -/
structure VkSurfaceFormatKHR where
  format : Nat
  colorSpace : Nat
deriving DecidableEq

/-- Vulkan enum value `VK_FORMAT_B8G8R8A8_SRGB` (= 50). -/
def VK_FORMAT_B8G8R8A8_SRGB : Nat := 50

/-- Vulkan enum value `VK_COLOR_SPACE_SRGB_NONLINEAR_KHR` (= 0). -/
def VK_COLOR_SPACE_SRGB_NONLINEAR_KHR : Nat := 0

/-- The preference test from the loop body of `choose_surface_format`:
`f.format == VK_FORMAT_B8G8R8A8_SRGB && f.colorSpace == VK_COLOR_SPACE_SRGB_NONLINEAR_KHR`. -/
def isPreferredFormat (f : VkSurfaceFormatKHR) : Bool :=
  f.format == VK_FORMAT_B8G8R8A8_SRGB && f.colorSpace == VK_COLOR_SPACE_SRGB_NONLINEAR_KHR

/-- `choose_surface_format` (Swapchain.cc): fail on an empty format list,
otherwise return the first 8-bit BGRA sRGB / sRGB-nonlinear entry if one
exists, else the front of the list. -/
def choose_surface_format (formats : List VkSurfaceFormatKHR) :
    Except String VkSurfaceFormatKHR :=
  match formats with
  | [] => .error "No surface formats available."
  | f0 :: _ =>
    match formats.find? (fun f => isPreferredFormat f) with
    | some f => .ok f
    | none => .ok f0

/-- `VkExtent2D`: a 2-D pixel extent (`uint32_t` components modelled as `Nat`). -/
structure VkExtent2D where
  width : Nat
  height : Nat
deriving DecidableEq

/-- The fields of `VkSurfaceCapabilitiesKHR` the swapchain code reads. -/
structure VkSurfaceCapabilitiesKHR where
  minImageCount : Nat
  maxImageCount : Nat
  currentExtent : VkExtent2D
  minImageExtent : VkExtent2D
  maxImageExtent : VkExtent2D
deriving DecidableEq

/-- The sentinel `UINT32_MAX` used by `choose_extent`. -/
def UINT32_MAX : Nat := 2 ^ 32 - 1

/-- `std::clamp(v, lo, hi)`: `lo` if `v < lo`, `hi` if `hi < v`, else `v`. -/
def stdClamp (v lo hi : Nat) : Nat :=
  if v < lo then lo else if hi < v then hi else v

/-- `clamp_extent` (Swapchain.cc): componentwise `std::clamp` of an extent
into `[minv, maxv]`. -/
def clamp_extent (value minv maxv : VkExtent2D) : VkExtent2D :=
  ⟨stdClamp value.width minv.width maxv.width,
   stdClamp value.height minv.height maxv.height⟩

/-- `choose_extent` (Swapchain.cc).  The window framebuffer size, reported by
`glfwGetFramebufferSize` through `int` out-parameters, is passed as two `Int`s
(it can be `0` while minimised). -/
def choose_extent (fbWidth fbHeight : Int) (caps : VkSurfaceCapabilitiesKHR) :
    VkExtent2D :=
  if caps.currentExtent.width ≠ UINT32_MAX then
    caps.currentExtent
  else if fbWidth ≤ 0 ∨ fbHeight ≤ 0 then
    clamp_extent ⟨1, 1⟩ caps.minImageExtent caps.maxImageExtent
  else
    clamp_extent ⟨fbWidth.toNat, fbHeight.toNat⟩ caps.minImageExtent caps.maxImageExtent

/-- The image-count computation at the top of `Swapchain::create_swapchain`:
`image_count = caps.minImageCount + 1` (32-bit arithmetic), then
`if (caps.maxImageCount != 0 && image_count > caps.maxImageCount)
   image_count = caps.maxImageCount`. -/
def chosen_image_count (minImageCount maxImageCount : Nat) : Nat :=
  let ic := (minImageCount + 1) % 2 ^ 32
  if maxImageCount ≠ 0 ∧ ic > maxImageCount then maxImageCount else ic

/-! ## Buffer teardown (src/gfx/Buffer.cc) -/

/-- The handle-owning state of `gfx::Buffer`: a `VkBuffer`, a `VkDeviceMemory`
(`VK_NULL_HANDLE` modelled as `none`) and the recorded size. -/
structure Buffer where
  buffer : Option Nat
  memory : Option Nat
  size : Nat
deriving DecidableEq

/-- `Buffer::shutdown` (Buffer.cc:93-103): destroy the buffer handle if
non-null and null it, destroy the memory handle if non-null and null it,
zero the size.  Returns the new state together with the list of native
handles passed to a `vkDestroy*`/`vkFree*` call. -/
def Buffer.shutdown (b : Buffer) : Buffer × List Nat :=
  let destroyedBuf : List Nat := match b.buffer with | some h => [h] | none => []
  let destroyedMem : List Nat := match b.memory with | some h => [h] | none => []
  (⟨none, none, 0⟩, destroyedBuf ++ destroyedMem)

/-! ## Memory-type selection (src/gfx/Buffer.cc, src/gfx/Image.cc) -/

/-- The loop of `find_memory_type`: scan indices `i = start, start+1, …`
while `i < n`, returning the first `i` with
`(type_bits & (1u << i)) != 0 && (propertyFlags[i] & props) == props`. -/
def findMemoryTypeLoop (n : Nat) (propertyFlags : Nat → Nat)
    (type_bits props i : Nat) : Except String Nat :=
  if h : i < n then
    if (type_bits &&& (1 <<< i)) != 0 && (propertyFlags i &&& props) == props then
      .ok i
    else
      findMemoryTypeLoop n propertyFlags type_bits props (i + 1)
  else
    .error "No suitable memory type found."
termination_by n - i
decreasing_by omega

/-- `find_memory_type` (identical in Buffer.cc and Image.cc): the memory-type
table is the driver-reported `VkPhysicalDeviceMemoryProperties`, given as the
count `memoryTypeCount` and the per-index `propertyFlags`. -/
def find_memory_type (memoryTypeCount : Nat) (propertyFlags : Nat → Nat)
    (type_bits props : Nat) : Except String Nat :=
  findMemoryTypeLoop memoryTypeCount propertyFlags type_bits props 0

/-- Spec-side reading of a compatible memory type: bit `j` is set in the
requirement bitmask and the type's property flags contain all requested
flags. -/
def memTypeCompatible (propertyFlags : Nat → Nat) (type_bits props j : Nat) : Prop :=
  Nat.testBit type_bits j ∧ propertyFlags j &&& props = props

instance (propertyFlags : Nat → Nat) (type_bits props j : Nat) :
    Decidable (memTypeCompatible propertyFlags type_bits props j) := by
  unfold memTypeCompatible
  infer_instance

/-! ## Physical-device selection (src/gfx/Context.cc) -/

/-- What `find_queue_families` observes about one queue family of a device:
whether `queueFlags` has `VK_QUEUE_GRAPHICS_BIT`, and the
`vkGetPhysicalDeviceSurfaceSupportKHR` answer for the target surface. -/
structure QueueFamilyProps where
  graphicsBit : Bool
  presentSupport : Bool
deriving DecidableEq

/-- A physical device as observed by the selection code: its queue-family
table and whether it offers the `VK_KHR_swapchain` extension. -/
structure PhysicalDevice where
  queueFamilies : List QueueFamilyProps
  hasSwapchainExtension : Bool
deriving DecidableEq

/-- The result record of `find_queue_families`. -/
structure QueueFamilyIndices where
  graphics : Option Nat
  present : Option Nat
deriving DecidableEq

/-- `QueueFamilyIndices::complete()`. -/
def QueueFamilyIndices.complete (qf : QueueFamilyIndices) : Bool :=
  qf.graphics.isSome && qf.present.isSome

/-- The loop of `find_queue_families` (Context.cc:134-151): for each family
`i` in order, record `graphics = i` if it has the graphics bit and
`present = i` if it supports presentation, and break as soon as both are
resolved. -/
def findQueueFamiliesLoop :
    List QueueFamilyProps → Nat → Option Nat → Option Nat → QueueFamilyIndices
  | [], _, g, p => ⟨g, p⟩
  | q :: rest, i, g, p =>
    let g2 := if q.graphicsBit then some i else g
    let p2 := if q.presentSupport then some i else p
    if g2.isSome && p2.isSome then ⟨g2, p2⟩
    else findQueueFamiliesLoop rest (i + 1) g2 p2

/-- `find_queue_families` (Context.cc). -/
def find_queue_families (families : List QueueFamilyProps) : QueueFamilyIndices :=
  findQueueFamiliesLoop families 0 none none

/-- The acceptance test of `pick_physical_device`'s loop: complete queue
families and the `VK_KHR_swapchain` device extension. -/
def suitableDevice (d : PhysicalDevice) : Bool :=
  (find_queue_families d.queueFamilies).complete && d.hasSwapchainExtension

/-- The device loop of `pick_physical_device` (Context.cc:346-358): accept
the first enumerated device that passes `suitableDevice`. -/
def pickDeviceLoop : List PhysicalDevice → Except String PhysicalDevice
  | [] => .error "No suitable physical device found (need graphics+present and VK_KHR_swapchain)"
  | d :: rest => if suitableDevice d then .ok d else pickDeviceLoop rest

/-- `Context::pick_physical_device` (Context.cc:336-361): fail when the
enumeration is empty, otherwise run the first-match loop. -/
def pick_physical_device (devices : List PhysicalDevice) :
    Except String PhysicalDevice :=
  if devices.isEmpty then .error "No Vulkan physical devices found"
  else pickDeviceLoop devices

/-- Spec-side qualification of a device (claim C5): some queue family
supports graphics, some (possibly the same) supports presentation, and the
swapchain presentation extension is available. -/
def specQualifies (d : PhysicalDevice) : Prop :=
  (∃ q ∈ d.queueFamilies, q.graphicsBit = true) ∧
  (∃ q ∈ d.queueFamilies, q.presentSupport = true) ∧
  d.hasSwapchainExtension = true

instance (d : PhysicalDevice) : Decidable (specQualifies d) := by
  unfold specQualifies
  infer_instance

/-! ## SPIR-V loading and pipeline construction (src/gfx/Pipeline.cc) -/

/-- A file on disk as seen by `read_spirv`: `none` when the file cannot be
opened, otherwise its byte contents. -/
abbrev SpirvFile : Type := Option (List Nat)

/-- Assemble little-endian 4-byte groups into 32-bit code units, as the raw
`ifs.read` into a `std::vector<std::uint32_t>` does on a little-endian host. -/
def bytesToWords : List Nat → List Nat
  | b0 :: b1 :: b2 :: b3 :: rest =>
    (b0 + 256 * b1 + 65536 * b2 + 16777216 * b3) :: bytesToWords rest
  | _ => []

/-- `read_spirv` (Pipeline.cc:148-168): fail when the file is missing, when
its size is zero, or when its size is not a multiple of 4; otherwise return
the code words. -/
def read_spirv (file : SpirvFile) : Except String (List Nat) :=
  match file with
  | none => .error "Failed to open SPIR-V file"
  | some bytes =>
    if bytes.length = 0 then .error "SPIR-V file is empty"
    else if bytes.length % 4 ≠ 0 then .error "SPIR-V file size is not multiple of 4"
    else .ok (bytesToWords bytes)

/-- Which of the three handles owned by `gfx::Pipeline` have been created. -/
structure PipelineHandles where
  render_pass : Bool
  pipeline_layout : Bool
  pipeline : Bool
deriving DecidableEq

/-- `Pipeline::init` (Pipeline.cc:195-335), with the driver calls that cannot
fail in this model (`vkCreate*` on well-formed inputs) assumed successful:
the render pass is created first, then the two shader blobs are loaded via
`read_spirv`, and only afterwards the pipeline layout and the graphics
pipeline are created.  Returns the handle set reached together with the
error, if any. -/
def Pipeline.init (vertFile fragFile : SpirvFile) :
    PipelineHandles × Option String :=
  let afterRenderPass : PipelineHandles := ⟨true, false, false⟩
  match read_spirv vertFile with
  | .error e => (afterRenderPass, some e)
  | .ok _ =>
    match read_spirv fragFile with
    | .error e => (afterRenderPass, some e)
    | .ok _ => (⟨true, true, true⟩, none)

/-- A SPIR-V file input that `read_spirv` rejects: missing, empty, or with a
byte size not a multiple of 4. -/
def badSpirvFile (file : SpirvFile) : Prop :=
  file = none ∨ file = some [] ∨
  ∃ bytes, file = some bytes ∧ bytes.length % 4 ≠ 0

/-! ## The draw_frame protocol (src/gfx/Renderer.cc) -/

/-- `Renderer::kMaxFramesInFlight` (= 2). -/
def kMaxFramesInFlight : Nat := 2

/-- The per-call outcome of a Vulkan call that `draw_frame` branches on. -/
inductive VkRes where
  | success
  | suboptimalKHR
  | errorOutOfDateKHR
  | otherError (code : Int)
deriving DecidableEq

/-- The state of `gfx::Renderer` that `draw_frame` reads and writes:
the ring-slot index `frame_index_`, the in-flight fence states (`true` means
signaled, or signaled-on-completion of already-submitted GPU work, so that a
`vkWaitForFences` with infinite timeout returns), and the common length of
the `command_buffers_` / `framebuffers_` vectors (one per swapchain image). -/
structure RendererState where
  frameIndex : Nat
  inFlightSignaled : List Bool
  imageCount : Nat
deriving DecidableEq

/-- The driver/environment outcomes of one `draw_frame` call: the result and
image index of `vkAcquireNextImageKHR`, the result of `vkQueuePresentKHR`,
and the image count of the swapchain rebuilt by
`recreate_swapchain_dependent` when that path is taken. -/
structure DrawEnv where
  acqResult : VkRes
  acqImageIndex : Nat
  presResult : VkRes
  newImageCount : Nat
deriving DecidableEq

/-- Synchronisation / GPU-API work issued by `draw_frame`, in program order. -/
inductive FrameEvent where
  /-- `vkWaitForFences` on `in_flight_[slot]`. -/
  | fenceWait (slot : Nat)
  /-- `vkResetFences` on `in_flight_[slot]`. -/
  | fenceReset (slot : Nat)
  /-- `vkAcquireNextImageKHR` signalling `image_available_[slot]`. -/
  | acquireImage (slot : Nat)
  /-- `vkResetCommandBuffer` on `command_buffers_[image]`. -/
  | commandBufferReset (image : Nat)
  /-- `record_command_buffer` for `command_buffers_[image]`. -/
  | recordCommands (image : Nat)
  /-- `vkQueueSubmit` waiting on `image_available_[slot]`, signalling
  `render_finished_[slot]` and `in_flight_[slot]`. -/
  | submitGraphics (slot : Nat)
  /-- `vkQueuePresentKHR` waiting on `render_finished_[slot]`. -/
  | presentImage (slot : Nat) (image : Nat)
  /-- `recreate_swapchain_dependent` (device-wait-idle, swapchain and
  framebuffer/command-buffer rebuild). -/
  | recreateSwap
deriving DecidableEq

/-- `Renderer::draw_frame` (Renderer.cc:354-427).  Returns the `bool` result
of the call (`false` is the skipped-frame signal), the successor state, and
the trace of issued work; `.error` models a thrown `std::runtime_error`
(`vk_check` failure or a `std::vector::at` range error). -/
def draw_frame (s : RendererState) (env : DrawEnv) :
    Except String (Bool × RendererState × List FrameEvent) :=
  match s.inFlightSignaled.get? s.frameIndex with
  | none => .error "vector::at: frame index out of range"
  | some _ =>
    let i := s.frameIndex
    -- vkWaitForFences on in_flight_[i] (infinite timeout), then vkResetFences.
    let s1 : RendererState := { s with inFlightSignaled := s.inFlightSignaled.set i false }
    let ev1 : List FrameEvent := [.fenceWait i, .fenceReset i, .acquireImage i]
    if env.acqResult = .errorOutOfDateKHR then
      .ok (false, { s1 with imageCount := env.newImageCount }, ev1 ++ [.recreateSwap])
    else if env.acqResult ≠ .success ∧ env.acqResult ≠ .suboptimalKHR then
      .error "vkAcquireNextImageKHR failed"
    else if s1.imageCount ≤ env.acqImageIndex then
      .error "vector::at: image index out of range"
    else
      let img := env.acqImageIndex
      let ev2 := ev1 ++ [.commandBufferReset img, .recordCommands img, .submitGraphics i]
      -- vkQueueSubmit passes in_flight_[i] as the fence to signal on completion.
      let s2 : RendererState := { s1 with inFlightSignaled := s1.inFlightSignaled.set i true }
      let ev3 := ev2 ++ [.presentImage i img]
      if env.presResult = .errorOutOfDateKHR ∨ env.presResult = .suboptimalKHR ∨
         env.acqResult = .suboptimalKHR then
        .ok (false,
             { s2 with imageCount := env.newImageCount,
                       frameIndex := (i + 1) % kMaxFramesInFlight },
             ev3 ++ [.recreateSwap])
      else if env.presResult ≠ .success then
        .error "vkQueuePresentKHR failed"
      else
        .ok (true, { s2 with frameIndex := (i + 1) % kMaxFramesInFlight }, ev3)

/-! ## OBJ mesh loading (src/assets/ObjLoader.cc)

The loader is embedded over the file's lines, each line a `List Char`.
Floating-point vertex coordinates are kept as their source tokens
(`List Char`) — no claim inspects their numeric values — and the stream
float extraction `iss >> x >> y >> z` is modelled by a float-syntax
recogniser on whitespace-separated tokens.  Dynamic parts of the error
messages (path, line number) are dropped. -/

/-- The whitespace set of C `isspace` in the default locale. -/
def isSpaceChar (c : Char) : Bool :=
  c = ' ' || c = '\t' || c = '\n' || c = '\x0b' || c = '\x0c' || c = '\r'

/-- `static bool starts_with(s, p)` of ObjLoader.cc, on char lists. -/
def startsWithChars : List Char → List Char → Bool
  | _, [] => true
  | [], _ :: _ => false
  | c :: cs, p :: ps => c = p && startsWithChars cs ps

/-- Split into maximal whitespace-free tokens, as repeated
`std::istringstream` extraction does; `acc` holds the current token
reversed. -/
def splitTokensAux : List Char → List Char → List (List Char)
  | [], acc => if acc.isEmpty then [] else [acc.reverse]
  | c :: rest, acc =>
    if isSpaceChar c then
      if acc.isEmpty then splitTokensAux rest []
      else acc.reverse :: splitTokensAux rest []
    else splitTokensAux rest (c :: acc)

/-- Whitespace tokenisation of a line. -/
def splitTokens (s : List Char) : List (List Char) := splitTokensAux s []

/-- Maximal digit prefix and the remainder. -/
def takeDigits (s : List Char) : List Char × List Char :=
  (s.takeWhile Char.isDigit, s.dropWhile Char.isDigit)

/-- Case-insensitive prefix test (for `inf`/`infinity`/`nan`). -/
def startsWithCI : List Char → List Char → Bool
  | _, [] => true
  | [], _ :: _ => false
  | c :: cs, p :: ps => (c.toLower = p.toLower) && startsWithCI cs ps

/-- Consume a complete exponent `e|E [+|-] digits` and return it with the
remainder; consume nothing when no complete exponent follows (`strtod`
backtracks over a bare `e`/`e+`). -/
def readExp (s : List Char) : List Char × List Char :=
  match s with
  | c :: rest =>
    if c = 'e' ∨ c = 'E' then
      match rest with
      | d :: rest2 =>
        if d = '+' ∨ d = '-' then
          let ds := takeDigits rest2
          if ds.1.isEmpty then ([], s) else (c :: d :: ds.1, ds.2)
        else
          let ds := takeDigits rest
          if ds.1.isEmpty then ([], s) else (c :: ds.1, ds.2)
      | [] => ([], s)
    else ([], s)
  | [] => ([], s)

/-- Consume a decimal mantissa `digits [. digits]` or `. digits` (at least
one digit overall) and return it with the remainder; `none` when the input
does not start with one. -/
def readMantissa (s : List Char) : Option (List Char × List Char) :=
  let ip := takeDigits s
  match ip.2 with
  | '.' :: r2 =>
    let fp := takeDigits r2
    if ip.1.isEmpty && fp.1.isEmpty then none
    else some (ip.1 ++ '.' :: fp.1, fp.2)
  | _ => if ip.1.isEmpty then none else some ip

/-- The unsigned part of a float: `inf`/`infinity`/`nan` (case-insensitive),
or a mantissa with an optional exponent.  (The `nan(…)` payload form and
hexadecimal floats are not modelled; no input in scope uses them.) -/
def readFloatBody (s : List Char) : Option (List Char × List Char) :=
  if startsWithCI s ['i', 'n', 'f', 'i', 'n', 'i', 't', 'y'] then
    some (s.take 8, s.drop 8)
  else if startsWithCI s ['i', 'n', 'f'] then some (s.take 3, s.drop 3)
  else if startsWithCI s ['n', 'a', 'n'] then some (s.take 3, s.drop 3)
  else
    match readMantissa s with
    | none => none
    | some mr =>
      let er := readExp mr.2
      some (mr.1 ++ er.1, er.2)

/-- One `iss >> (float&)` extraction: skip whitespace, then consume the
longest prefix that parses as a float (`strtod` semantics — trailing
garbage after a complete float is left in the stream); `none` when no
valid float prefix is present, which sets the stream's fail state. -/
def readFloat (s : List Char) : Option (List Char × List Char) :=
  match s.dropWhile (fun c => isSpaceChar c) with
  | [] => none
  | c :: rest =>
    if c = '-' ∨ c = '+' then
      match readFloatBody rest with
      | some tr => some (c :: tr.1, tr.2)
      | none => none
    else readFloatBody (c :: rest)

/-- `digits` as a decimal integer (the accumulator loop
`value = value * 10 + (c - '0')` of `parse_vertex_index_token`). -/
def digitsToInt (l : List Char) : Int :=
  l.foldl (fun v c => v * 10 + ((c.toNat : Int) - ('0'.toNat : Int))) 0

/-- `ObjLoader::parse_vertex_index_token` (ObjLoader.cc:33-67): take the part
before the first `/`, reject an empty head, allow one leading `-`, then
require every remaining character to be a digit; return the signed value. -/
def parse_vertex_index_token (token : List Char) : Except String Int :=
  let head := token.takeWhile (fun c => c ≠ '/')
  match head with
  | [] => .error "OBJ: face token has empty vertex index"
  | c :: cs =>
    if c = '-' then
      match cs with
      | [] => .error "OBJ: invalid vertex index token"
      | d :: ds =>
        if (d :: ds).all Char.isDigit then .ok (-(digitsToInt (d :: ds)))
        else .error "OBJ: invalid vertex index token"
    else
      if (c :: cs).all Char.isDigit then .ok (digitsToInt (c :: cs))
      else .error "OBJ: invalid vertex index token"

/-- `ObjLoader::to_zero_based_index` (ObjLoader.cc:69-88): positive OBJ
indices are 1-based, negative ones count back from the end, `0` is invalid;
out-of-range values (against the positions declared so far) fail. -/
def to_zero_based_index (obj_index : Int) (vertex_count : Nat) :
    Except String Int :=
  if obj_index > 0 then
    let z := obj_index - 1
    if z < 0 ∨ z ≥ (vertex_count : Int) then .error "OBJ: vertex index out of range"
    else .ok z
  else if obj_index < 0 then
    let z := (vertex_count : Int) + obj_index
    if z < 0 ∨ z ≥ (vertex_count : Int) then .error "OBJ: negative vertex index out of range"
    else .ok z
  else .error "OBJ: vertex index 0 is invalid"

/-- `assets::ObjMesh`: flat positions (one float token per component, three
per vertex) and triangulated indices. -/
structure ObjMesh where
  positions_xyz : List (List Char)
  indices : List Nat
deriving DecidableEq

/-- `Except`-valued map over a list, failing on the first failure, as the
token loop of a face line does. -/
def mapTokens {α β : Type} (f : α → Except String β) : List α → Except String (List β)
  | [] => .ok []
  | a :: t =>
    match f a with
    | .error e => .error e
    | .ok b =>
      match mapTokens f t with
      | .error e => .error e
      | .ok bs => .ok (b :: bs)

/-- The fan-triangulation loop of a face (ObjLoader.cc:160-167): for each
consecutive pair `(face[i], face[i+1])` of the face's tail, convert both
indices against the current vertex count and emit the triangle
`(i0, i1, i2)`. -/
def fanTriangulate (i0 : Nat) (tail : List Int) (vcount : Nat) :
    Except String (List Nat) :=
  match tail with
  | a :: b :: t =>
    match to_zero_based_index a vcount with
    | .error e => .error e
    | .ok i1 =>
      match to_zero_based_index b vcount with
      | .error e => .error e
      | .ok i2 =>
        match fanTriangulate i0 (b :: t) vcount with
        | .error e => .error e
        | .ok more => .ok (i0 :: i1.toNat :: i2.toNat :: more)
  | _ => .ok []

/-- Dispatch on a trimmed OBJ line (the body of the line loop of
`ObjLoader::load`, ObjLoader.cc:117-172): blank lines are skipped, `v` lines
append three float tokens to the positions, `f` lines parse their index
tokens, require at least three, and fan-triangulate against the positions
declared so far; other line kinds (`vt`, `vn`, `usemtl`, …) are ignored. -/
def processObjLineBody (m : ObjMesh) (s : List Char) : Except String ObjMesh :=
  if s.isEmpty then .ok m
  else if startsWithChars s ['v', ' '] then
    match readFloat (s.drop 1) with
    | none => .error "OBJ: malformed vertex"
    | some xr =>
      match readFloat xr.2 with
      | none => .error "OBJ: malformed vertex"
      | some yr =>
        match readFloat yr.2 with
        | none => .error "OBJ: malformed vertex"
        | some zr =>
          .ok { m with positions_xyz := m.positions_xyz ++ [xr.1, yr.1, zr.1] }
  else if startsWithChars s ['f', ' '] then
    match splitTokens s with
    | [] => .error "OBJ: face has <3 vertices"
    | _ :: toks =>
      match mapTokens parse_vertex_index_token toks with
      | .error e => .error e
      | .ok face =>
        if face.length < 3 then .error "OBJ: face has <3 vertices"
        else
          match face with
          | [] => .error "OBJ: face has <3 vertices"
          | a :: tail =>
            match to_zero_based_index a (m.positions_xyz.length / 3) with
            | .error e => .error e
            | .ok i0 =>
              match fanTriangulate i0.toNat tail (m.positions_xyz.length / 3) with
              | .error e => .error e
              | .ok tris => .ok { m with indices := m.indices ++ tris }
  else .ok m

/-- One iteration of the line loop of `ObjLoader::load`
(ObjLoader.cc:100-173): skip empty and comment lines, trim leading
whitespace, then dispatch on the trimmed line via `processObjLineBody`. -/
def processObjLine (m : ObjMesh) (line : List Char) : Except String ObjMesh :=
  match line with
  | [] => .ok m
  | c0 :: _ =>
    if c0 = '#' then .ok m
    else processObjLineBody m (line.dropWhile (fun c => isSpaceChar c))

/-- The line loop of `ObjLoader::load`. -/
def processObjLines : List (List Char) → ObjMesh → Except String ObjMesh
  | [], m => .ok m
  | l :: ls, m =>
    match processObjLine m l with
    | .error e => .error e
    | .ok m2 => processObjLines ls m2

/-- `ObjLoader::load` (ObjLoader.cc:90-183) over the file's lines: run the
line loop from the empty mesh, then reject an empty position array or an
empty index array. -/
def ObjLoader_load (lines : List (List Char)) : Except String ObjMesh :=
  match processObjLines lines ⟨[], []⟩ with
  | .error e => .error e
  | .ok m =>
    if m.positions_xyz.isEmpty then .error "OBJ: no vertices loaded"
    else if m.indices.isEmpty then .error "OBJ: no faces loaded (indices empty)"
    else .ok m

/-! ## Helper lemmas -/

/-- `stdClamp` lands in `[lo, hi]` whenever `lo ≤ hi`. -/
theorem stdClamp_mem {v lo hi : Nat} (h : lo ≤ hi) :
    lo ≤ stdClamp v lo hi ∧ stdClamp v lo hi ≤ hi := by
  unfold stdClamp
  split_ifs <;> omega

/-- `List.find?` returns the entry at the first position satisfying the
predicate. -/
theorem find?_eq_first_sat {α : Type} (p : α → Bool) :
    ∀ (l : List α) (k : Nat) (hk : k < l.length),
      p (l.get ⟨k, hk⟩) = true →
      (∀ j (hj : j < k), p (l.get ⟨j, Nat.lt_trans hj hk⟩) = false) →
      l.find? p = some (l.get ⟨k, hk⟩) := by
  intro l
  induction l with
  | nil => intro k hk; exact absurd hk (Nat.not_lt_zero k)
  | cons a t ih =>
    intro k hk hp hmin
    cases k with
    | zero => simpa [List.find?] using hp ▸ (by simp [List.find?, hp])
    | succ k =>
      have ha : p a = false := hmin 0 (Nat.succ_pos k)
      have hk2 : k < t.length := Nat.lt_of_succ_lt_succ hk
      have := ih k hk2 (by simpa using hp)
        (fun j hj => by simpa using hmin (j + 1) (Nat.succ_lt_succ hj))
      simp only [List.find?, ha]
      simpa using this

/-! ## Claim C3 -/

/-- C3: the swapchain image count requested at creation is
`minImageCount + 1`, reduced to `maxImageCount` when `maxImageCount ≠ 0` and
`minImageCount + 1` exceeds it; consequently, for a valid capability report
(`minImageCount ≤ maxImageCount` whenever `maxImageCount ≠ 0`),
`minImageCount ≤ chosen ∧ chosen ≤ maxImageCount` holds whenever
`maxImageCount ≠ 0`, and the count is not clamped above when
`maxImageCount = 0`. -/
theorem claim3_image_count_clamped (minc maxc : Nat)
    (hof : minc + 1 < 2 ^ 32) (hv : maxc ≠ 0 → minc ≤ maxc) :
    (chosen_image_count minc maxc =
       if maxc ≠ 0 ∧ minc + 1 > maxc then maxc else minc + 1) ∧
    minc ≤ chosen_image_count minc maxc ∧
    (maxc ≠ 0 → chosen_image_count minc maxc ≤ maxc) ∧
    (maxc = 0 → chosen_image_count minc maxc = minc + 1) := by
  have h1 : (minc + 1) % 2 ^ 32 = minc + 1 := Nat.mod_eq_of_lt hof
  unfold chosen_image_count
  simp only [h1]
  refine ⟨by trivial, ?_, ?_, ?_⟩
  · split_ifs with h
    · exact hv h.1
    · omega
  · intro hm
    have := hv hm
    split_ifs with h <;> omega
  · intro hm
    subst hm
    simp

/-- C3 witness: a concrete capability report `min = 2`, `max = 3`. -/
theorem claim3_witness :
    2 ≤ chosen_image_count 2 3 ∧ (3 ≠ 0 → chosen_image_count 2 3 ≤ 3) :=
  ⟨(claim3_image_count_clamped 2 3 (by norm_num) (by omega)).2.1,
   (claim3_image_count_clamped 2 3 (by norm_num) (by omega)).2.2.1⟩

/-! ## Claim C6 -/

/-- C6: on a non-empty format list, `choose_surface_format` returns the
first entry equal to 8-bit BGRA sRGB with sRGB-nonlinear colour space when
one exists, and the first list element otherwise; on an empty list it
fails. -/
theorem claim6_surface_format_choice (formats : List VkSurfaceFormatKHR) :
    (choose_surface_format [] = Except.error "No surface formats available.") ∧
    (∀ f0 rest, formats = f0 :: rest →
      ((∀ f ∈ formats, ¬(f.format = VK_FORMAT_B8G8R8A8_SRGB ∧
          f.colorSpace = VK_COLOR_SPACE_SRGB_NONLINEAR_KHR)) →
        choose_surface_format formats = Except.ok f0) ∧
      (∀ k, ∀ hk : k < formats.length,
        (formats.get ⟨k, hk⟩).format = VK_FORMAT_B8G8R8A8_SRGB →
        (formats.get ⟨k, hk⟩).colorSpace = VK_COLOR_SPACE_SRGB_NONLINEAR_KHR →
        (∀ j, ∀ hj : j < k,
          ¬((formats.get ⟨j, Nat.lt_trans hj hk⟩).format = VK_FORMAT_B8G8R8A8_SRGB ∧
            (formats.get ⟨j, Nat.lt_trans hj hk⟩).colorSpace = VK_COLOR_SPACE_SRGB_NONLINEAR_KHR)) →
        choose_surface_format formats = Except.ok (formats.get ⟨k, hk⟩))) := by
  have hiff : ∀ f : VkSurfaceFormatKHR, isPreferredFormat f = true ↔
      (f.format = VK_FORMAT_B8G8R8A8_SRGB ∧
       f.colorSpace = VK_COLOR_SPACE_SRGB_NONLINEAR_KHR) := by
    intro f
    simp [isPreferredFormat]
  refine ⟨rfl, ?_⟩
  intro f0 rest hform
  subst hform
  constructor
  · intro hnone
    have : (f0 :: rest).find? (fun f => isPreferredFormat f) = none := by
      rw [List.find?_eq_none]
      intro x hx
      simp only [hiff x]
      exact hnone x hx
    simp [choose_surface_format, this]
  · intro k hk h1 h2 hmin
    have hfind := find?_eq_first_sat (fun f => isPreferredFormat f) (f0 :: rest) k hk
      (by simp only [hiff]; exact ⟨h1, h2⟩)
      (fun j hj => by
        have := hmin j hj
        simp only [eq_iff_iff]
        rw [← Bool.not_eq_true]
        simp only [hiff]
        exact this)
    simp [choose_surface_format, hfind]

/-- C6 witness: format 50/0 offered second is preferred over 1/2. -/
theorem claim6_witness :
    choose_surface_format [⟨1, 2⟩, ⟨50, 0⟩] = Except.ok ⟨50, 0⟩ := by
  have h := (claim6_surface_format_choice [⟨1, 2⟩, ⟨50, 0⟩]).2 ⟨1, 2⟩ [⟨50, 0⟩] rfl
  exact h.2 1 (by norm_num) rfl rfl (by
    intro j hj
    interval_cases j
    simp [VK_FORMAT_B8G8R8A8_SRGB])

/-! ## Claim C7 -/

/-- C7: `choose_extent` returns the capabilities' current extent when its
width is not the `UINT32_MAX` sentinel; otherwise it clamps the framebuffer
pixel size componentwise into `[minImageExtent, maxImageExtent]`, and when
the framebuffer is zero or negative in either dimension it clamps `1×1`
into that range instead; in the clamping cases the result lies within the
capability range. -/
theorem claim7_extent_choice (fbW fbH : Int) (caps : VkSurfaceCapabilitiesKHR)
    (hv : caps.minImageExtent.width ≤ caps.maxImageExtent.width ∧
          caps.minImageExtent.height ≤ caps.maxImageExtent.height) :
    (caps.currentExtent.width ≠ UINT32_MAX →
       choose_extent fbW fbH caps = caps.currentExtent) ∧
    (caps.currentExtent.width = UINT32_MAX →
       ((fbW ≤ 0 ∨ fbH ≤ 0) →
          choose_extent fbW fbH caps =
            clamp_extent ⟨1, 1⟩ caps.minImageExtent caps.maxImageExtent) ∧
       (0 < fbW → 0 < fbH →
          choose_extent fbW fbH caps =
            clamp_extent ⟨fbW.toNat, fbH.toNat⟩ caps.minImageExtent caps.maxImageExtent) ∧
       (caps.minImageExtent.width ≤ (choose_extent fbW fbH caps).width ∧
        (choose_extent fbW fbH caps).width ≤ caps.maxImageExtent.width ∧
        caps.minImageExtent.height ≤ (choose_extent fbW fbH caps).height ∧
        (choose_extent fbW fbH caps).height ≤ caps.maxImageExtent.height)) := by
  constructor
  · intro hcur
    simp [choose_extent, hcur]
  · intro hcur
    have hne : ¬ caps.currentExtent.width ≠ UINT32_MAX := by simp [hcur]
    refine ⟨?_, ?_, ?_⟩
    · intro hz
      simp [choose_extent, hne, hz]
    · intro hw hh
      have hz : ¬ (fbW ≤ 0 ∨ fbH ≤ 0) := by omega
      simp only [choose_extent, if_neg hne, if_neg hz]
    · have hW := stdClamp_mem (v := if fbW ≤ 0 ∨ fbH ≤ 0 then 1 else fbW.toNat) hv.1
      have hH := stdClamp_mem (v := if fbW ≤ 0 ∨ fbH ≤ 0 then 1 else fbH.toNat) hv.2
      by_cases hz : fbW ≤ 0 ∨ fbH ≤ 0
      · simp only [choose_extent, if_neg hne, if_pos hz, clamp_extent]
        simp only [if_pos hz] at hW hH
        exact ⟨hW.1, hW.2, hH.1, hH.2⟩
      · simp only [choose_extent, if_neg hne, if_neg hz, clamp_extent]
        simp only [if_neg hz] at hW hH
        exact ⟨hW.1, hW.2, hH.1, hH.2⟩

/-- C7 witness: sentinel current extent, minimised window (0×0 framebuffer),
range `[5, 9]²`: the extent is the clamp of `1×1`. -/
theorem claim7_witness :
    choose_extent 0 0 ⟨2, 0, ⟨UINT32_MAX, 7⟩, ⟨5, 5⟩, ⟨9, 9⟩⟩ =
      clamp_extent ⟨1, 1⟩ ⟨5, 5⟩ ⟨9, 9⟩ :=
  ((claim7_extent_choice 0 0 ⟨2, 0, ⟨UINT32_MAX, 7⟩, ⟨5, 5⟩, ⟨9, 9⟩⟩
      (by constructor <;> norm_num)).2 rfl).1 (Or.inl le_rfl)

/-! ## Claim C9 -/

/-- C9: `Buffer::shutdown` destroys exactly the non-null handles, nulls
every handle, and a second call destroys nothing and leaves the state
unchanged — shutdown twice equals shutdown once, from any state
(uninitialised, partially initialised or fully initialised). -/
theorem claim9_shutdown_idempotent (b : Buffer) :
    (b.shutdown.1.buffer = none ∧ b.shutdown.1.memory = none ∧
     b.shutdown.1.size = 0) ∧
    (∀ h ∈ b.shutdown.2, b.buffer = some h ∨ b.memory = some h) ∧
    (b.buffer = none ∧ b.memory = none → b.shutdown.2 = []) ∧
    b.shutdown.1.shutdown = (b.shutdown.1, []) := by
  obtain ⟨ob, om, sz⟩ := b
  cases ob <;> cases om <;> simp [Buffer.shutdown]

/-- C9 witness: a fully initialised buffer `(4, 9)`; the first shutdown
reports handle 4 as owned, the second destroys nothing. -/
theorem claim9_witness :
    ((⟨some 4, some 9, 12⟩ : Buffer).buffer = some 4 ∨
     (⟨some 4, some 9, 12⟩ : Buffer).memory = some 4) ∧
    (Buffer.shutdown ⟨some 4, some 9, 12⟩).1.shutdown =
      ((Buffer.shutdown ⟨some 4, some 9, 12⟩).1, []) :=
  ⟨(claim9_shutdown_idempotent ⟨some 4, some 9, 12⟩).2.1 4 (by decide),
   (claim9_shutdown_idempotent ⟨some 4, some 9, 12⟩).2.2.2⟩

/-! ## Claim C8 -/

/-- A rejected SPIR-V file makes `read_spirv` fail. -/
theorem read_spirv_error_of_bad {f : SpirvFile} (hb : badSpirvFile f) :
    ∃ e, read_spirv f = .error e := by
  rcases hb with h | h | ⟨bytes, hf, hm⟩
  · subst h
    exact ⟨_, rfl⟩
  · subst h
    exact ⟨_, rfl⟩
  · subst hf
    by_cases hz : bytes.length = 0
    · exact ⟨"SPIR-V file is empty", by simp [read_spirv, hz]⟩
    · exact ⟨"SPIR-V file size is not multiple of 4", by simp [read_spirv, hz, hm]⟩

/-- An accepted SPIR-V file makes `read_spirv` succeed. -/
theorem read_spirv_ok_of_good {f : SpirvFile} (hg : ¬ badSpirvFile f) :
    ∃ w, read_spirv f = .ok w := by
  unfold badSpirvFile at hg
  push_neg at hg
  obtain ⟨h1, h2, h3⟩ := hg
  match f with
  | none => exact absurd rfl h1
  | some bytes =>
    have hz : bytes.length ≠ 0 := by
      intro h0
      exact h2 (by simpa using List.length_eq_zero.mp h0)
    have hm : bytes.length % 4 = 0 := h3 bytes rfl
    exact ⟨bytesToWords bytes, by simp [read_spirv, hz, hm]⟩

/-- C8: when either shader bytecode file is missing, empty, or of a size not
a multiple of 4, `Pipeline::init` fails, and at that point neither the
pipeline-layout handle nor the pipeline handle has been created (only the
render pass, which `init` creates before loading the shaders). -/
theorem claim8_bad_spirv_fails_init (vf ff : SpirvFile)
    (hbad : badSpirvFile vf ∨ badSpirvFile ff) :
    ∃ e, Pipeline.init vf ff = (⟨true, false, false⟩, some e) := by
  rcases hbad with hv | hf
  · obtain ⟨e, he⟩ := read_spirv_error_of_bad hv
    exact ⟨e, by simp [Pipeline.init, he]⟩
  · by_cases hv : badSpirvFile vf
    · obtain ⟨e, he⟩ := read_spirv_error_of_bad hv
      exact ⟨e, by simp [Pipeline.init, he]⟩
    · obtain ⟨w, hw⟩ := read_spirv_ok_of_good hv
      obtain ⟨e, he⟩ := read_spirv_error_of_bad hf
      exact ⟨e, by simp [Pipeline.init, hw, he]⟩

/-- C8 witness: a zero-length vertex-shader file fails `Pipeline::init`
before the layout or pipeline handle exists. -/
theorem claim8_witness :
    ∃ e, Pipeline.init (some []) (some [1, 2, 3, 4]) =
      (⟨true, false, false⟩, some e) :=
  claim8_bad_spirv_fails_init (some []) (some [1, 2, 3, 4])
    (Or.inl (Or.inr (Or.inl rfl)))

/-! ## Claim C4 -/

/-- The C++ bit test `(type_bits & (1u << i)) != 0` is `testBit`. -/
theorem and_one_shift_ne_zero_iff (tb i : Nat) :
    tb &&& (1 <<< i) ≠ 0 ↔ tb.testBit i = true := by
  rw [Nat.shiftLeft_eq, one_mul, Nat.and_two_pow]
  have h2 : (0 : Nat) < 2 ^ i := Nat.pos_pow_of_pos i (by norm_num)
  cases h : tb.testBit i
  · simp
  · simp [h2.ne']


/-- The loop guard of `find_memory_type` decides `memTypeCompatible`. -/
theorem findMemoryTypeCond_iff (flags : Nat → Nat) (tb pr i : Nat) :
    ((tb &&& (1 <<< i)) != 0 && (flags i &&& pr) == pr) = true ↔
      memTypeCompatible flags tb pr i := by
  rw [Bool.and_eq_true, bne_iff_ne, beq_iff_eq, memTypeCompatible,
    and_one_shift_ne_zero_iff]

/-- `findMemoryTypeLoop` from start index `i` returns exactly the least
compatible index `≥ i` below `n`, and the resource error otherwise. -/
theorem findMemoryTypeLoop_spec (n : Nat) (flags : Nat → Nat) (tb pr : Nat) :
    ∀ d i, n - i ≤ d →
      ((∀ j, findMemoryTypeLoop n flags tb pr i = .ok j ↔
          (i ≤ j ∧ j < n ∧ memTypeCompatible flags tb pr j ∧
           ∀ k, i ≤ k → k < j → ¬ memTypeCompatible flags tb pr k)) ∧
       (findMemoryTypeLoop n flags tb pr i = .error "No suitable memory type found." ↔
          ∀ j, i ≤ j → j < n → ¬ memTypeCompatible flags tb pr j)) := by
  intro d
  induction d with
  | zero =>
    intro i hd
    have hin : ¬ i < n := by omega
    rw [findMemoryTypeLoop, dif_neg hin]
    constructor
    · intro j
      constructor
      · intro h
        exact absurd h (by simp)
      · intro ⟨h1, h2, _, _⟩
        omega
    · simp only [true_iff]
      intro j h1 h2
      omega
  | succ d ih =>
    intro i hd
    by_cases hin : i < n
    · rw [findMemoryTypeLoop, dif_pos hin]
      by_cases hc : memTypeCompatible flags tb pr i
      · rw [if_pos ((findMemoryTypeCond_iff flags tb pr i).mpr hc)]
        constructor
        · intro j
          constructor
          · intro h
            have hj : i = j := by simpa using h
            subst hj
            exact ⟨le_rfl, hin, hc, fun k h1 h2 => absurd (lt_of_le_of_lt h1 h2) (lt_irrefl i)⟩
          · intro ⟨h1, _, _, hmin⟩
            rcases Nat.eq_or_lt_of_le h1 with he | hl
            · simp [he]
            · exact absurd hc (hmin i le_rfl hl)
        · constructor
          · intro h
            exact absurd h (by simp)
          · intro hall
            exact absurd hc (hall i le_rfl hin)
      · rw [if_neg (fun hb => hc ((findMemoryTypeCond_iff flags tb pr i).mp hb))]
        have hrec := ih (i + 1) (by omega)
        constructor
        · intro j
          rw [hrec.1 j]
          constructor
          · intro ⟨h1, h2, h3, hmin⟩
            refine ⟨by omega, h2, h3, fun k hk1 hk2 => ?_⟩
            rcases Nat.eq_or_lt_of_le hk1 with he | hl
            · subst he
              exact hc
            · exact hmin k hl hk2
          · intro ⟨h1, h2, h3, hmin⟩
            have hij : i ≠ j := by
              intro he
              subst he
              exact hc h3
            exact ⟨by omega, h2, h3, fun k hk1 hk2 => hmin k (by omega) hk2⟩
        · rw [hrec.2]
          constructor
          · intro hall j h1 h2
            rcases Nat.eq_or_lt_of_le h1 with he | hl
            · subst he
              exact hc
            · exact hall j hl h2
          · intro hall j h1 h2
            exact hall j (by omega) h2
    · rw [findMemoryTypeLoop, dif_neg hin]
      constructor
      · intro j
        constructor
        · intro h
          exact absurd h (by simp)
        · intro ⟨h1, h2, _, _⟩
          omega
      · simp only [true_iff]
        intro j h1 h2
        omega

/-- C4: for every driver memory-type table, requirement bitmask and
requested property flags, `find_memory_type` returns the smallest index `j`
below the type count whose bit is set in the bitmask and whose property
flags contain all requested flags; and it fails with the resource error
exactly when no such index exists (so it never returns an incompatible
type). -/
theorem claim4_memory_type_first_match (memoryTypeCount : Nat)
    (propertyFlags : Nat → Nat) (type_bits props : Nat) :
    (∀ j, find_memory_type memoryTypeCount propertyFlags type_bits props = .ok j ↔
       (j < memoryTypeCount ∧
        memTypeCompatible propertyFlags type_bits props j ∧
        ∀ k, k < j → ¬ memTypeCompatible propertyFlags type_bits props k)) ∧
    (find_memory_type memoryTypeCount propertyFlags type_bits props =
        .error "No suitable memory type found." ↔
       ∀ j, j < memoryTypeCount → ¬ memTypeCompatible propertyFlags type_bits props j) := by
  have h := findMemoryTypeLoop_spec memoryTypeCount propertyFlags type_bits props
    memoryTypeCount 0 (by omega)
  constructor
  · intro j
    rw [find_memory_type, h.1 j]
    constructor
    · intro ⟨_, h2, h3, hmin⟩
      exact ⟨h2, h3, fun k hk => hmin k (Nat.zero_le k) hk⟩
    · intro ⟨h2, h3, hmin⟩
      exact ⟨Nat.zero_le j, h2, h3, fun k _ hk => hmin k hk⟩
  · rw [find_memory_type, h.2]
    constructor
    · intro hall j hj
      exact hall j (Nat.zero_le j) hj
    · intro hall j _ hj
      exact hall j hj

/-- C4 witness: two memory types with flags `0` and `7`, bitmask `0b11`,
requested flags `5`: index 1 is the first (and only) compatible type. -/
theorem claim4_witness :
    find_memory_type 2 (fun i => if i = 0 then 0 else 7) 3 5 = Except.ok 1 :=
  ((claim4_memory_type_first_match 2 (fun i => if i = 0 then 0 else 7) 3 5).1 1).mpr
    (by
      refine ⟨by norm_num, ⟨by decide, by decide⟩, ?_⟩
      intro k hk
      interval_cases k
      simp [memTypeCompatible])


/-! ## Claim C5 -/

/-- The early-break loop of `find_queue_families` resolves both indices
exactly when, beyond what the carried accumulators already resolve, the
remaining families provide graphics and presentation. -/
theorem findQueueFamiliesLoop_complete (l : List QueueFamilyProps) :
    ∀ i g p, (findQueueFamiliesLoop l i g p).complete = true ↔
      ((g.isSome = true ∨ ∃ q ∈ l, q.graphicsBit = true) ∧
       (p.isSome = true ∨ ∃ q ∈ l, q.presentSupport = true)) := by
  induction l with
  | nil =>
    intro i g p
    simp [findQueueFamiliesLoop, QueueFamilyIndices.complete]
  | cons q t ih =>
    intro i g p
    rw [findQueueFamiliesLoop]
    have hg2s : (if q.graphicsBit then some i else g).isSome = (q.graphicsBit || g.isSome) := by
      cases hqb : q.graphicsBit <;> simp
    have hp2s : (if q.presentSupport then some i else p).isSome = (q.presentSupport || p.isSome) := by
      cases hqp : q.presentSupport <;> simp
    have hgEq : ((if q.graphicsBit then some i else g).isSome = true ∨
          ∃ r ∈ t, r.graphicsBit = true) ↔
        (g.isSome = true ∨ ∃ r ∈ q :: t, r.graphicsBit = true) := by
      rw [hg2s]
      constructor
      · rintro (h | ⟨r, hr, hrb⟩)
        · rw [Bool.or_eq_true] at h
          rcases h with h | h
          · exact Or.inr ⟨q, List.mem_cons_self q t, h⟩
          · exact Or.inl h
        · exact Or.inr ⟨r, List.mem_cons_of_mem q hr, hrb⟩
      · rintro (h | ⟨r, hr, hrb⟩)
        · exact Or.inl (by simp [h])
        · rcases List.mem_cons.mp hr with heq | hr
          · subst heq
            exact Or.inl (by simp [hrb])
          · exact Or.inr ⟨r, hr, hrb⟩
    have hpEq : ((if q.presentSupport then some i else p).isSome = true ∨
          ∃ r ∈ t, r.presentSupport = true) ↔
        (p.isSome = true ∨ ∃ r ∈ q :: t, r.presentSupport = true) := by
      rw [hp2s]
      constructor
      · rintro (h | ⟨r, hr, hrb⟩)
        · rw [Bool.or_eq_true] at h
          rcases h with h | h
          · exact Or.inr ⟨q, List.mem_cons_self q t, h⟩
          · exact Or.inl h
        · exact Or.inr ⟨r, List.mem_cons_of_mem q hr, hrb⟩
      · rintro (h | ⟨r, hr, hrb⟩)
        · exact Or.inl (by simp [h])
        · rcases List.mem_cons.mp hr with heq | hr
          · subst heq
            exact Or.inl (by simp [hrb])
          · exact Or.inr ⟨r, hr, hrb⟩
    by_cases hcond : ((if q.graphicsBit then some i else g).isSome &&
        (if q.presentSupport then some i else p).isSome) = true
    · rw [if_pos hcond]
      have hl : QueueFamilyIndices.complete
          ⟨if q.graphicsBit then some i else g, if q.presentSupport then some i else p⟩ = true :=
        hcond
      rw [hl]
      simp only [true_iff]
      rw [Bool.and_eq_true] at hcond
      exact ⟨hgEq.mp (Or.inl hcond.1), hpEq.mp (Or.inl hcond.2)⟩
    · rw [if_neg hcond]
      rw [ih (i + 1) _ _]
      rw [and_congr hgEq hpEq]

/-- `suitableDevice` decides exactly the spec-side qualification. -/
theorem suitableDevice_iff (d : PhysicalDevice) :
    suitableDevice d = true ↔ specQualifies d := by
  unfold suitableDevice specQualifies find_queue_families
  rw [Bool.and_eq_true, findQueueFamiliesLoop_complete]
  simp [and_assoc]

/-- The first-match loop of `pick_physical_device` returns the device at the
first qualifying position, and only that. -/
theorem pickDeviceLoop_ok_iff (l : List PhysicalDevice) (d : PhysicalDevice) :
    pickDeviceLoop l = .ok d ↔
      ∃ k, ∃ hk : k < l.length, l.get ⟨k, hk⟩ = d ∧ suitableDevice d = true ∧
        ∀ j, ∀ hj : j < k, suitableDevice (l.get ⟨j, Nat.lt_trans hj hk⟩) = false := by
  induction l with
  | nil =>
    simp [pickDeviceLoop]
  | cons a t ih =>
    rw [pickDeviceLoop]
    by_cases ha : suitableDevice a = true
    · rw [if_pos ha]
      constructor
      · intro h
        have had : a = d := by simpa using h
        subst had
        exact ⟨0, Nat.succ_pos t.length, rfl, ha,
          fun j hj => absurd hj (Nat.not_lt_zero j)⟩
      · intro ⟨k, hk, hget, _, hmin⟩
        cases k with
        | zero =>
          simp only [List.get] at hget
          rw [hget]
        | succ k =>
          exact absurd ha (by simpa using hmin 0 (Nat.succ_pos k))
    · rw [if_neg ha]
      rw [ih]
      constructor
      · intro ⟨k, hk, hget, hsd, hmin⟩
        refine ⟨k + 1, Nat.succ_lt_succ hk, by simpa using hget, hsd, ?_⟩
        intro j hj
        cases j with
        | zero => simpa using ha
        | succ j => simpa using hmin j (Nat.lt_of_succ_lt_succ hj)
      · intro ⟨k, hk, hget, hsd, hmin⟩
        cases k with
        | zero =>
          simp only [List.get] at hget
          subst hget
          exact absurd hsd ha
        | succ k =>
          refine ⟨k, Nat.lt_of_succ_lt_succ hk, by simpa using hget, hsd, ?_⟩
          intro j hj
          simpa using hmin (j + 1) (Nat.succ_lt_succ hj)

/-- The first-match loop fails exactly when no device qualifies. -/
theorem pickDeviceLoop_error_iff (l : List PhysicalDevice) :
    (∃ e, pickDeviceLoop l = .error e) ↔ ∀ d ∈ l, suitableDevice d = false := by
  induction l with
  | nil =>
    simp [pickDeviceLoop]
  | cons a t ih =>
    rw [pickDeviceLoop]
    by_cases ha : suitableDevice a = true
    · rw [if_pos ha]
      simp [ha]
    · rw [if_neg ha]
      rw [ih]
      simp [Bool.eq_false_iff.mpr ha]

/-- C5: `pick_physical_device` returns `d` exactly when `d` sits at the
first enumerated position whose device has a graphics queue family, a
present-capable queue family (possibly the same) and the swapchain
extension — no scoring between matches — and it fails with a fatal error
exactly when no enumerated device qualifies. -/
theorem claim5_first_suitable_device (devices : List PhysicalDevice) :
    (∀ d, pick_physical_device devices = .ok d ↔
       ∃ k, ∃ hk : k < devices.length, devices.get ⟨k, hk⟩ = d ∧ specQualifies d ∧
         ∀ j, ∀ hj : j < k, ¬ specQualifies (devices.get ⟨j, Nat.lt_trans hj hk⟩)) ∧
    ((∃ e, pick_physical_device devices = .error e) ↔
       ∀ d ∈ devices, ¬ specQualifies d) := by
  have hnot : ∀ d, suitableDevice d = false ↔ ¬ specQualifies d := by
    intro d
    rw [← suitableDevice_iff]
    simp
  constructor
  · intro d
    unfold pick_physical_device
    cases devices with
    | nil =>
      simp
    | cons a t =>
      rw [if_neg (by simp)]
      rw [pickDeviceLoop_ok_iff]
      constructor
      · intro ⟨k, hk, h1, h2, hmin⟩
        exact ⟨k, hk, h1, (suitableDevice_iff d).mp h2,
          fun j hj => (hnot _).mp (hmin j hj)⟩
      · intro ⟨k, hk, h1, h2, hmin⟩
        exact ⟨k, hk, h1, (suitableDevice_iff d).mpr h2,
          fun j hj => (hnot _).mpr (hmin j hj)⟩
  · unfold pick_physical_device
    cases devices with
    | nil =>
      simp
    | cons a t =>
      rw [if_neg (by simp)]
      rw [pickDeviceLoop_error_iff]
      constructor
      · intro h d hd
        exact (hnot d).mp (h d hd)
      · intro h d hd
        exact (hnot d).mpr (h d hd)

/-- C5 witness: the first device lacks queue capabilities, the second
qualifies and is selected. -/
theorem claim5_witness :
    pick_physical_device [⟨[⟨false, false⟩], true⟩, ⟨[⟨true, true⟩], true⟩] =
      Except.ok ⟨[⟨true, true⟩], true⟩ :=
  ((claim5_first_suitable_device _).1 _).mpr
    ⟨1, by norm_num, rfl,
     ⟨⟨⟨true, true⟩, by simp, rfl⟩, ⟨⟨true, true⟩, by simp, rfl⟩, rfl⟩,
     by
       intro j hj
       interval_cases j
       intro ⟨⟨r, hr, hrb⟩, _, _⟩
       simp at hr
       subst hr
       simp at hrb⟩

/-! ## Claim C1 -/

/-- C1 counterexample: a concrete out-of-date acquisition.  The call returns
the skipped-frame signal without advancing the slot, but the slot's
in-flight fence is NOT left in the signaled state it had after the fence
wait: the `vkResetFences` issued before acquisition (step 1 of the
protocol) leaves it unsignaled, and that fence work is part of the call's
trace. -/
theorem claim1_counterexample :
    draw_frame ⟨0, [true, true], 2⟩ ⟨.errorOutOfDateKHR, 0, .success, 2⟩ =
      .ok (false, ⟨0, [false, true], 2⟩,
           [.fenceWait 0, .fenceReset 0, .acquireImage 0, .recreateSwap]) ∧
    ¬ (([false, true] : List Bool).get? 0 = some true) ∧
    FrameEvent.fenceReset 0 ∈
      ([.fenceWait 0, .fenceReset 0, .acquireImage 0, .recreateSwap] : List FrameEvent) :=
  ⟨rfl, by decide, by decide⟩

/-- C1 (amended): on an out-of-date acquisition, `draw_frame` returns the
skipped-frame signal, does not advance the ring slot, and issues no submit
or present work — but the slot's in-flight fence has already been reset by
the wait-and-reset performed before acquisition, so it is left unsignaled
(not in its post-wait signaled state). -/
theorem claim1_out_of_date_resets_fence (s : RendererState) (env : DrawEnv)
    (hacq : env.acqResult = .errorOutOfDateKHR)
    (hlt : s.frameIndex < s.inFlightSignaled.length) :
    draw_frame s env =
      .ok (false,
           { s with inFlightSignaled := s.inFlightSignaled.set s.frameIndex false,
                    imageCount := env.newImageCount },
           [.fenceWait s.frameIndex, .fenceReset s.frameIndex,
            .acquireImage s.frameIndex, .recreateSwap]) ∧
    ({ s with inFlightSignaled := s.inFlightSignaled.set s.frameIndex false,
              imageCount := env.newImageCount } : RendererState).frameIndex = s.frameIndex ∧
    (∀ slot, FrameEvent.submitGraphics slot ∉
       ([.fenceWait s.frameIndex, .fenceReset s.frameIndex,
         .acquireImage s.frameIndex, .recreateSwap] : List FrameEvent)) ∧
    (∀ slot img, FrameEvent.presentImage slot img ∉
       ([.fenceWait s.frameIndex, .fenceReset s.frameIndex,
         .acquireImage s.frameIndex, .recreateSwap] : List FrameEvent)) ∧
    (s.inFlightSignaled.set s.frameIndex false).get? s.frameIndex = some false := by
  have hget : s.inFlightSignaled[s.frameIndex]? = some (s.inFlightSignaled[s.frameIndex]) :=
    List.getElem?_eq_getElem hlt
  refine ⟨?_, rfl, ?_, ?_, ?_⟩
  · simp [draw_frame, hget, hacq]
  · intro slot
    simp
  · intro slot img
    simp
  · rw [List.get?_eq_getElem?]
    exact List.getElem?_set_eq_of_lt false (by simpa using hlt)

/-- C1 witness: slot 0 of a freshly signaled two-slot ring, out-of-date
acquisition. -/
theorem claim1_witness :
    draw_frame ⟨0, [true, true], 2⟩ ⟨.errorOutOfDateKHR, 1, .success, 2⟩ =
      .ok (false, ⟨0, [false, true], 2⟩,
           [.fenceWait 0, .fenceReset 0, .acquireImage 0, .recreateSwap]) ∧
    ([false, true] : List Bool).get? 0 = some false :=
  ⟨(claim1_out_of_date_resets_fence ⟨0, [true, true], 2⟩
      ⟨.errorOutOfDateKHR, 1, .success, 2⟩ rfl (by norm_num)).1,
   (claim1_out_of_date_resets_fence ⟨0, [true, true], 2⟩
      ⟨.errorOutOfDateKHR, 1, .success, 2⟩ rfl (by norm_num)).2.2.2.2⟩

/-! ## Claim C2 -/

/-- C2: on a suboptimal (not out-of-date) acquisition, the frame is still
recorded, submitted and presented — all strictly before recreation is
triggered in the trace — the ring slot is advanced modulo
`kMaxFramesInFlight`, and the call reports a skipped/stale frame so the
next iteration uses the rebuilt swapchain. -/
theorem claim2_suboptimal_presents_before_recreate (s : RendererState) (env : DrawEnv)
    (hacq : env.acqResult = .suboptimalKHR)
    (hlt : s.frameIndex < s.inFlightSignaled.length)
    (himg : env.acqImageIndex < s.imageCount) :
    draw_frame s env =
      .ok (false,
           { s with frameIndex := (s.frameIndex + 1) % kMaxFramesInFlight,
                    inFlightSignaled := s.inFlightSignaled.set s.frameIndex true,
                    imageCount := env.newImageCount },
           [.fenceWait s.frameIndex, .fenceReset s.frameIndex, .acquireImage s.frameIndex,
            .commandBufferReset env.acqImageIndex, .recordCommands env.acqImageIndex,
            .submitGraphics s.frameIndex, .presentImage s.frameIndex env.acqImageIndex,
            .recreateSwap]) ∧
    (∃ work,
       ([.fenceWait s.frameIndex, .fenceReset s.frameIndex, .acquireImage s.frameIndex,
         .commandBufferReset env.acqImageIndex, .recordCommands env.acqImageIndex,
         .submitGraphics s.frameIndex, .presentImage s.frameIndex env.acqImageIndex,
         .recreateSwap] : List FrameEvent) = work ++ [.recreateSwap] ∧
       FrameEvent.recordCommands env.acqImageIndex ∈ work ∧
       FrameEvent.submitGraphics s.frameIndex ∈ work ∧
       FrameEvent.presentImage s.frameIndex env.acqImageIndex ∈ work) := by
  have hget : s.inFlightSignaled[s.frameIndex]? = some (s.inFlightSignaled[s.frameIndex]) :=
    List.getElem?_eq_getElem hlt
  have hni : ¬ (s.imageCount ≤ env.acqImageIndex) := by omega
  constructor
  · simp [draw_frame, hget, hacq, hni, List.set_set]
  · refine ⟨[.fenceWait s.frameIndex, .fenceReset s.frameIndex, .acquireImage s.frameIndex,
      .commandBufferReset env.acqImageIndex, .recordCommands env.acqImageIndex,
      .submitGraphics s.frameIndex, .presentImage s.frameIndex env.acqImageIndex],
      rfl, by simp, by simp, by simp⟩

/-- C2 witness: slot 0 acquires image 2 suboptimally from a three-image
swapchain; the frame is fully rendered, the slot advances to 1. -/
theorem claim2_witness :
    draw_frame ⟨0, [true, true], 3⟩ ⟨.suboptimalKHR, 2, .success, 4⟩ =
      .ok (false, ⟨1, [true, true], 4⟩,
           [.fenceWait 0, .fenceReset 0, .acquireImage 0,
            .commandBufferReset 2, .recordCommands 2,
            .submitGraphics 0, .presentImage 0 2, .recreateSwap]) :=
  (claim2_suboptimal_presents_before_recreate ⟨0, [true, true], 3⟩
    ⟨.suboptimalKHR, 2, .success, 4⟩ rfl (by norm_num) (by norm_num)).1

/-! ## Claim C10 -/

/-- A successful index conversion is in range: nonnegative and strictly
below the vertex count. -/
theorem to_zero_based_index_lt {a : Int} {v : Nat} {z : Int}
    (h : to_zero_based_index a v = .ok z) : 0 ≤ z ∧ z.toNat < v := by
  unfold to_zero_based_index at h
  by_cases h1 : a > 0
  · rw [if_pos h1] at h
    by_cases h2 : a - 1 < 0 ∨ a - 1 ≥ (v : Int)
    · rw [if_pos h2] at h
      cases h
    · rw [if_neg h2] at h
      simp only [Except.ok.injEq] at h
      omega
  · rw [if_neg h1] at h
    by_cases h2 : a < 0
    · rw [if_pos h2] at h
      by_cases h3 : (v : Int) + a < 0 ∨ (v : Int) + a ≥ (v : Int)
      · rw [if_pos h3] at h
        cases h
      · rw [if_neg h3] at h
        simp only [Except.ok.injEq] at h
        omega
    · rw [if_neg h2] at h
      cases h

/-- A successful fan triangulation of a face tail yields `3 * (k - 1)`
indices for a tail of length `k`, each either the fan apex or in range. -/
theorem fanTriangulate_spec {i0 vcount : Nat} :
    ∀ {tail : List Int} {out : List Nat},
      fanTriangulate i0 tail vcount = .ok out →
      out.length = 3 * (tail.length - 1) ∧ ∀ ix ∈ out, ix = i0 ∨ ix < vcount := by
  intro tail
  induction tail with
  | nil =>
    intro out h
    simp only [fanTriangulate, Except.ok.injEq] at h
    subst h
    simp
  | cons a t ih =>
    intro out h
    cases t with
    | nil =>
      simp only [fanTriangulate, Except.ok.injEq] at h
      subst h
      simp
    | cons b t2 =>
      rw [fanTriangulate] at h
      cases h1 : to_zero_based_index a vcount with
      | error e => rw [h1] at h; cases h
      | ok i1 =>
        rw [h1] at h
        cases h2 : to_zero_based_index b vcount with
        | error e => rw [h2] at h; cases h
        | ok i2 =>
          rw [h2] at h
          cases h3 : fanTriangulate i0 (b :: t2) vcount with
          | error e => rw [h3] at h; cases h
          | ok more =>
            rw [h3] at h
            simp only [Except.ok.injEq] at h
            subst h
            obtain ⟨hlen, hmem⟩ := ih h3
            constructor
            · simp only [List.length_cons, hlen]
              omega
            · intro ix hix
              rcases List.mem_cons.mp hix with rfl | hix
              · exact Or.inl rfl
              rcases List.mem_cons.mp hix with rfl | hix
              · exact Or.inr (to_zero_based_index_lt h1).2
              rcases List.mem_cons.mp hix with rfl | hix
              · exact Or.inr (to_zero_based_index_lt h2).2
              · exact hmem ix hix

/-- The structural invariant maintained by the OBJ line loop: the flat
position array holds whole vertices, the index array holds whole triangles,
and every index references a declared vertex. -/
def MeshInv (m : ObjMesh) : Prop :=
  m.positions_xyz.length % 3 = 0 ∧
  m.indices.length % 3 = 0 ∧
  ∀ ix ∈ m.indices, ix < m.positions_xyz.length / 3


/-- The line-body dispatch preserves the structural invariant. -/
theorem processObjLineBody_inv {m m2 : ObjMesh} {s : List Char}
    (hm : MeshInv m) (h : processObjLineBody m s = .ok m2) : MeshInv m2 := by
  obtain ⟨hp3, hi3, hbound⟩ := hm
  rw [processObjLineBody] at h
  split at h
  · simp only [Except.ok.injEq] at h
    subst h
    exact ⟨hp3, hi3, hbound⟩
  · split at h
    · -- "v " line
      split at h <;> try cases h
      split at h <;> try cases h
      split at h
      · cases h
      · simp only [Except.ok.injEq] at h
        subst h
        refine ⟨?_, hi3, ?_⟩
        · simp only [List.length_append, List.length_cons, List.length_nil]
          omega
        · intro ix hix
          have hb := hbound ix hix
          simp only [List.length_append, List.length_cons, List.length_nil]
          omega
    · split at h
      · -- "f " line
        split at h <;> try cases h
        split at h <;> try cases h
        split at h <;> try cases h
        split at h <;> try cases h
        split at h <;> try cases h
        rename_i hi0
        split at h
        · cases h
        · rename_i tris htris
          simp only [Except.ok.injEq] at h
          subst h
          obtain ⟨hlen, hmem⟩ := fanTriangulate_spec htris
          have hi0lt := (to_zero_based_index_lt hi0).2
          refine ⟨hp3, ?_, ?_⟩
          · simp only [List.length_append, hlen]
            omega
          · intro ix hix
            rcases List.mem_append.mp hix with hix | hix
            · exact hbound ix hix
            · rcases hmem ix hix with rfl | hlt
              · exact hi0lt
              · exact hlt
      · simp only [Except.ok.injEq] at h
        subst h
        exact ⟨hp3, hi3, hbound⟩

/-- Processing one OBJ line preserves the structural invariant. -/
theorem processObjLine_inv {m m2 : ObjMesh} {line : List Char}
    (hm : MeshInv m) (h : processObjLine m line = .ok m2) : MeshInv m2 := by
  cases line with
  | nil =>
    simp only [processObjLine, Except.ok.injEq] at h
    subst h
    exact hm
  | cons c0 rest =>
    rw [processObjLine] at h
    split at h
    · simp only [Except.ok.injEq] at h
      subst h
      exact hm
    · exact processObjLineBody_inv hm h

/-- The whole line loop preserves the structural invariant. -/
theorem processObjLines_inv :
    ∀ {lines : List (List Char)} {m m2 : ObjMesh},
      MeshInv m → processObjLines lines m = .ok m2 → MeshInv m2 := by
  intro lines
  induction lines with
  | nil =>
    intro m m2 hm h
    simp only [processObjLines, Except.ok.injEq] at h
    subst h
    exact hm
  | cons l ls ih =>
    intro m m2 hm h
    rw [processObjLines] at h
    cases h1 : processObjLine m l with
    | error e => rw [h1] at h; cases h
    | ok mm =>
      rw [h1] at h
      exact ih (processObjLine_inv hm h1) h

/-- Spec-side classifier: a line the loader's dispatch treats as a vertex
declaration (after the comment/blank skip, its whitespace-trimmed form
starts with `v` followed by a space). -/
def isVertexLineB (line : List Char) : Bool :=
  startsWithChars (line.dropWhile (fun c => isSpaceChar c)) ['v', ' ']

/-- Spec-side classifier: a line the loader's dispatch treats as a face. -/
def isFaceLineB (line : List Char) : Bool :=
  startsWithChars (line.dropWhile (fun c => isSpaceChar c)) ['f', ' ']

/-- The vertex-index tokens of a face line: the whitespace tokens of the
trimmed line after the `f` tag. -/
def faceIndexTokens (line : List Char) : List (List Char) :=
  (splitTokens (line.dropWhile (fun c => isSpaceChar c))).drop 1

/-- Spec-side validity of an OBJ vertex index against `vcount` declared
positions: 1-based from the front, or negative 1-based from the back;
everything else (including 0) is out of range. -/
def objIndexValid (a : Int) (vcount : Nat) : Prop :=
  (1 ≤ a ∧ a ≤ (vcount : Int)) ∨ (-(vcount : Int) ≤ a ∧ a ≤ -1)

/-- A successful index conversion presupposes a valid OBJ index. -/
theorem to_zero_based_index_valid {a : Int} {v : Nat} {z : Int}
    (h : to_zero_based_index a v = .ok z) : objIndexValid a v := by
  unfold to_zero_based_index at h
  unfold objIndexValid
  by_cases h1 : a > 0
  · rw [if_pos h1] at h
    by_cases h2 : a - 1 < 0 ∨ a - 1 ≥ (v : Int)
    · rw [if_pos h2] at h
      cases h
    · rw [if_neg h2] at h
      omega
  · rw [if_neg h1] at h
    by_cases h2 : a < 0
    · rw [if_pos h2] at h
      by_cases h3 : (v : Int) + a < 0 ∨ (v : Int) + a ≥ (v : Int)
      · rw [if_pos h3] at h
        cases h
      · rw [if_neg h3] at h
        omega
    · rw [if_neg h2] at h
      cases h

/-- A successful token map has one output per input token. -/
theorem mapTokens_length {α β : Type} {f : α → Except String β} :
    ∀ {l : List α} {bs : List β}, mapTokens f l = .ok bs → bs.length = l.length := by
  intro l
  induction l with
  | nil =>
    intro bs h
    simp only [mapTokens, Except.ok.injEq] at h
    subst h
    rfl
  | cons a t ih =>
    intro bs h
    rw [mapTokens] at h
    cases h1 : f a with
    | error e => rw [h1] at h; cases h
    | ok b =>
      rw [h1] at h
      cases h2 : mapTokens f t with
      | error e => rw [h2] at h; cases h
      | ok bs2 =>
        rw [h2] at h
        simp only [Except.ok.injEq] at h
        subst h
        simp [ih h2]

/-- A successful token map contains the image of every input token. -/
theorem mapTokens_mem {α β : Type} {f : α → Except String β} :
    ∀ {l : List α} {bs : List β} {a : α} {b : β},
      mapTokens f l = .ok bs → a ∈ l → f a = .ok b → b ∈ bs := by
  intro l
  induction l with
  | nil =>
    intro bs a b _ hmem
    cases hmem
  | cons x t ih =>
    intro bs a b h hmem hfa
    rw [mapTokens] at h
    cases h1 : f x with
    | error e => rw [h1] at h; cases h
    | ok bx =>
      rw [h1] at h
      cases h2 : mapTokens f t with
      | error e => rw [h2] at h; cases h
      | ok bt =>
        rw [h2] at h
        simp only [Except.ok.injEq] at h
        subst h
        rcases List.mem_cons.mp hmem with rfl | hmem
        · rw [hfa] at h1
          simp only [Except.ok.injEq] at h1
          subst h1
          exact List.mem_cons_self b bt
        · exact List.mem_cons_of_mem bx (ih h2 hmem hfa)

/-- Fan triangulation of a face tail with at least two entries fails when
any entry is an invalid index: either an earlier conversion fails first, or
the invalid entry's own conversion does. -/
theorem fanTriangulate_error_of_invalid {vcount : Nat} :
    ∀ {tail : List Int}, 2 ≤ tail.length →
      (∃ x ∈ tail, ¬ objIndexValid x vcount) →
      ∀ (i0 : Nat) (out : List Nat), fanTriangulate i0 tail vcount ≠ .ok out := by
  intro tail
  induction tail with
  | nil =>
    intro hlen
    simp at hlen
  | cons a t ih =>
    intro hlen hbad i0 out h
    cases t with
    | nil =>
      simp at hlen
    | cons b t2 =>
      rw [fanTriangulate] at h
      cases h1 : to_zero_based_index a vcount with
      | error e => rw [h1] at h; cases h
      | ok i1 =>
        rw [h1] at h
        have hva := to_zero_based_index_valid h1
        cases h2 : to_zero_based_index b vcount with
        | error e => rw [h2] at h; cases h
        | ok i2 =>
          rw [h2] at h
          have hvb := to_zero_based_index_valid h2
          obtain ⟨x, hx, hxinv⟩ := hbad
          rcases List.mem_cons.mp hx with rfl | hx
          · exact hxinv hva
          rcases List.mem_cons.mp hx with rfl | hx
          · exact hxinv hvb
          cases t2 with
          | nil => cases hx
          | cons c t3 =>
            cases h3 : fanTriangulate i0 (b :: c :: t3) vcount with
            | error e => rw [h3] at h; cases h
            | ok more =>
              exact ih (by simp) ⟨x, List.mem_cons_of_mem b hx, hxinv⟩ i0 more h3

/-- Tokenisation of a line starting with a non-space character followed by
a space: the head token is that single character. -/
theorem splitTokens_cons_cons {c d : Char} (hc : isSpaceChar c = false)
    (hd : isSpaceChar d = true) (r : List Char) :
    splitTokens (c :: d :: r) = [c] :: splitTokens r := by
  simp [splitTokens, splitTokensAux, hc, hd]

/-- A two-character prefix determines the head of the list. -/
theorem startsWithChars_two {s : List Char} {c1 c2 : Char}
    (h : startsWithChars s [c1, c2] = true) : ∃ r, s = c1 :: c2 :: r := by
  cases s with
  | nil => cases h
  | cons x t =>
    cases t with
    | nil =>
      simp only [startsWithChars, Bool.and_eq_true] at h
      exact absurd h.2 (by simp)
    | cons y r =>
      simp only [startsWithChars, Bool.and_eq_true] at h
      obtain ⟨h1, h3, _⟩ := h
      refine ⟨r, ?_⟩
      have hx : x = c1 := by simpa using h1
      have hy : y = c2 := by simpa using h3
      rw [hx, hy]

/-- A face line skips neither the empty-line nor the comment branch: its
processing goes through `processObjLineBody` on the trimmed line. -/
theorem processObjLine_face_body {m : ObjMesh} {line : List Char}
    (hf : isFaceLineB line = true) :
    processObjLine m line =
      processObjLineBody m (line.dropWhile (fun c => isSpaceChar c)) := by
  cases line with
  | nil => cases hf
  | cons c0 rest =>
    rw [processObjLine]
    rw [if_neg]
    intro hc
    subst hc
    unfold isFaceLineB at hf
    rw [List.dropWhile_cons, if_neg (by simp [isSpaceChar])] at hf
    simp only [startsWithChars, Bool.and_eq_true] at hf
    exact absurd hf.1 (by simp)

/-- The body of a face line whose face is short (fewer than three index
tokens) or contains an index invalid for the current vertex count never
succeeds. -/
theorem processObjLineBody_face_error {m : ObjMesh} {s : List Char}
    (hf : startsWithChars s ['f', ' '] = true)
    (hbad : ((splitTokens s).drop 1).length < 3 ∨
            ∃ tok ∈ (splitTokens s).drop 1, ∃ a,
              parse_vertex_index_token tok = .ok a ∧
              ¬ objIndexValid a (m.positions_xyz.length / 3)) :
    ∀ m2, processObjLineBody m s ≠ .ok m2 := by
  obtain ⟨r, rfl⟩ := startsWithChars_two hf
  intro m2 h
  rw [processObjLineBody] at h
  rw [if_neg (by simp)] at h
  rw [if_neg (by simp [startsWithChars])] at h
  rw [if_pos hf] at h
  rw [splitTokens_cons_cons (by decide) (by decide) r] at h
  dsimp only at h
  rw [splitTokens_cons_cons (by decide) (by decide) r] at hbad
  simp only [List.drop_succ_cons, List.drop_zero] at hbad
  cases hmt : mapTokens parse_vertex_index_token (splitTokens r) with
  | error e => rw [hmt] at h; cases h
  | ok face =>
    rw [hmt] at h
    dsimp only at h
    have hflen : face.length = (splitTokens r).length := mapTokens_length hmt
    by_cases hlen : face.length < 3
    · rw [if_pos hlen] at h
      cases h
    · rw [if_neg hlen] at h
      rcases hbad with hshort | ⟨tok, htok, a0, hpa, hinvalid⟩
      · omega
      · cases face with
        | nil => cases h
        | cons a tail =>
          dsimp only at h
          have ha0mem : a0 ∈ a :: tail := mapTokens_mem hmt htok hpa
          cases hz : to_zero_based_index a (m.positions_xyz.length / 3) with
          | error e => rw [hz] at h; cases h
          | ok i0 =>
            rw [hz] at h
            dsimp only at h
            rcases List.mem_cons.mp ha0mem with rfl | hmem
            · exact hinvalid (to_zero_based_index_valid hz)
            · cases hfan : fanTriangulate i0.toNat tail (m.positions_xyz.length / 3) with
              | error e => rw [hfan] at h; cases h
              | ok tris =>
                refine fanTriangulate_error_of_invalid ?_
                  ⟨a0, hmem, hinvalid⟩ i0.toNat tris hfan
                simp only [List.length_cons] at hlen
                omega

/-- A face line with a short face or an invalid index (for the current
vertex count) never processes successfully. -/
theorem processObjLine_face_error {m : ObjMesh} {line : List Char}
    (hf : isFaceLineB line = true)
    (hbad : (faceIndexTokens line).length < 3 ∨
            ∃ tok ∈ faceIndexTokens line, ∃ a,
              parse_vertex_index_token tok = .ok a ∧
              ¬ objIndexValid a (m.positions_xyz.length / 3)) :
    ∀ m2, processObjLine m line ≠ .ok m2 := by
  rw [processObjLine_face_body hf]
  exact processObjLineBody_face_error hf hbad

/-- A successful line-body run appends exactly three position tokens when
the trimmed line is a vertex line and none otherwise, and touches the index
array only on a face line. -/
theorem processObjLineBody_counts {m m2 : ObjMesh} {s : List Char}
    (h : processObjLineBody m s = .ok m2) :
    m2.positions_xyz.length =
      m.positions_xyz.length + (if startsWithChars s ['v', ' '] = true then 3 else 0) ∧
    (startsWithChars s ['f', ' '] = false → m2.indices = m.indices) := by
  rw [processObjLineBody] at h
  split at h
  · rename_i hse
    have hs : s = [] := List.isEmpty_iff.mp hse
    subst hs
    simp only [Except.ok.injEq] at h
    subst h
    exact ⟨by simp [startsWithChars], fun _ => rfl⟩
  · split at h
    · rename_i hv
      split at h <;> try cases h
      split at h <;> try cases h
      split at h
      · cases h
      · simp only [Except.ok.injEq] at h
        subst h
        refine ⟨?_, fun _ => rfl⟩
        rw [if_pos hv]
        simp
    · rename_i hv
      split at h
      · rename_i hfc
        split at h <;> try cases h
        split at h <;> try cases h
        split at h <;> try cases h
        split at h <;> try cases h
        split at h <;> try cases h
        split at h
        · cases h
        · simp only [Except.ok.injEq] at h
          subst h
          refine ⟨?_, ?_⟩
          · rw [if_neg hv]
            simp
          · intro hff
            rw [hfc] at hff
            cases hff
      · rename_i hfc
        simp only [Except.ok.injEq] at h
        subst h
        exact ⟨by rw [if_neg hv]; simp, fun _ => rfl⟩

/-- Line-level version of `processObjLineBody_counts`. -/
theorem processObjLine_counts {m m2 : ObjMesh} {line : List Char}
    (h : processObjLine m line = .ok m2) :
    m2.positions_xyz.length =
      m.positions_xyz.length + (if isVertexLineB line = true then 3 else 0) ∧
    (isFaceLineB line = false → m2.indices = m.indices) := by
  cases line with
  | nil =>
    simp only [processObjLine, Except.ok.injEq] at h
    subst h
    exact ⟨by simp [isVertexLineB, startsWithChars], fun _ => rfl⟩
  | cons c0 rest =>
    rw [processObjLine] at h
    split at h
    · rename_i hc
      subst hc
      simp only [Except.ok.injEq] at h
      subst h
      refine ⟨?_, fun _ => rfl⟩
      have hvf : isVertexLineB ('#' :: rest) = false := by
        unfold isVertexLineB
        rw [List.dropWhile_cons, if_neg (by simp [isSpaceChar])]
        simp [startsWithChars]
      simp [hvf]
    · exact processObjLineBody_counts h

/-- Over a whole line list, a successful loop run multiplies: the final
position-token count is three per vertex line, and the index array is
untouched when no line is a face line. -/
theorem processObjLines_counts :
    ∀ {lines : List (List Char)} {m0 mm : ObjMesh},
      processObjLines lines m0 = .ok mm →
      mm.positions_xyz.length =
        m0.positions_xyz.length + 3 * lines.countP (fun l => isVertexLineB l) ∧
      ((∀ l ∈ lines, isFaceLineB l = false) → mm.indices = m0.indices) := by
  intro lines
  induction lines with
  | nil =>
    intro m0 mm h
    simp only [processObjLines, Except.ok.injEq] at h
    subst h
    simp
  | cons l ls ih =>
    intro m0 mm h
    rw [processObjLines] at h
    cases h1 : processObjLine m0 l with
    | error e => rw [h1] at h; cases h
    | ok m1 =>
      rw [h1] at h
      obtain ⟨hp, hi⟩ := processObjLine_counts h1
      obtain ⟨hp2, hi2⟩ := ih h
      constructor
      · rw [hp2, hp, List.countP_cons]
        by_cases hv : isVertexLineB l = true
        · simp [hv]
          omega
        · simp [hv]
      · intro hall
        rw [hi2 (fun x hx => hall x (List.mem_cons_of_mem l hx)),
          hi (hall l (List.mem_cons_self l ls))]

/-- The line loop splits over list concatenation. -/
theorem processObjLines_append (l1 l2 : List (List Char)) :
    ∀ m : ObjMesh, processObjLines (l1 ++ l2) m =
      match processObjLines l1 m with
      | .error e => .error e
      | .ok mm => processObjLines l2 mm := by
  induction l1 with
  | nil =>
    intro m
    rfl
  | cons a t ih =>
    intro m
    simp only [List.cons_append, processObjLines]
    cases h : processObjLine m a with
    | error e => rfl
    | ok mm => exact ih mm

/-- A failing line loop makes the whole load fail. -/
theorem load_error_of_loop_error {lines : List (List Char)} {e : String}
    (h : processObjLines lines ⟨[], []⟩ = .error e) :
    ObjLoader_load lines = .error e := by
  rw [ObjLoader_load, h]

/-- If the line at some position fails from the state the preceding lines
produce, the whole load fails. -/
theorem load_error_of_line_error (pre suf : List (List Char)) (l : List Char)
    (hfail : ∀ mm, processObjLines pre ⟨[], []⟩ = .ok mm →
      ∀ m2, processObjLine mm l ≠ .ok m2) :
    ∃ e, ObjLoader_load (pre ++ l :: suf) = .error e := by
  cases hpre : processObjLines pre ⟨[], []⟩ with
  | error e =>
    refine ⟨e, load_error_of_loop_error ?_⟩
    rw [processObjLines_append, hpre]
  | ok mm =>
    cases hline : processObjLine mm l with
    | error e =>
      refine ⟨e, load_error_of_loop_error ?_⟩
      rw [processObjLines_append, hpre]
      dsimp only
      rw [processObjLines, hline]
    | ok m2 => exact absurd hline (hfail mm hpre m2)

/-- C10: every successful `ObjLoader::load` yields non-empty positions and
indices, an index count that is a multiple of 3 (each face with `k`
vertices contributing `3 * (k - 2)` indices through its fan), and only
in-range zero-based indices; and the loader fails on every file with no
vertex lines, on every file with no face lines, on every file containing a
face with fewer than three index tokens, on every file containing a face
token whose index is 0, and on every file containing a face token whose
index is out of the range of the positions declared by the vertex lines
before it. -/
theorem claim10_obj_load_contract :
    (∀ (lines : List (List Char)) (m : ObjMesh), ObjLoader_load lines = .ok m →
       m.positions_xyz ≠ [] ∧ m.indices ≠ [] ∧ m.indices.length % 3 = 0 ∧
       ∀ ix ∈ m.indices, ix < m.positions_xyz.length / 3) ∧
    (∀ (i0 vcount : Nat) (tail : List Int) (out : List Nat),
        fanTriangulate i0 tail vcount = .ok out →
        out.length = 3 * (tail.length - 1)) ∧
    (∀ lines : List (List Char), (∀ l ∈ lines, isVertexLineB l = false) →
       ∃ e, ObjLoader_load lines = .error e) ∧
    (∀ lines : List (List Char), (∀ l ∈ lines, isFaceLineB l = false) →
       ∃ e, ObjLoader_load lines = .error e) ∧
    (∀ (lines : List (List Char)) (l : List Char), l ∈ lines →
       isFaceLineB l = true → (faceIndexTokens l).length < 3 →
       ∃ e, ObjLoader_load lines = .error e) ∧
    (∀ (lines : List (List Char)) (l : List Char), l ∈ lines →
       isFaceLineB l = true →
       (∃ tok ∈ faceIndexTokens l, parse_vertex_index_token tok = .ok 0) →
       ∃ e, ObjLoader_load lines = .error e) ∧
    (∀ (pre : List (List Char)) (l : List Char) (suf : List (List Char)),
       isFaceLineB l = true →
       (∃ tok ∈ faceIndexTokens l, ∃ a, parse_vertex_index_token tok = .ok a ∧
          ¬ objIndexValid a (pre.countP (fun l2 => isVertexLineB l2))) →
       ∃ e, ObjLoader_load (pre ++ l :: suf) = .error e) := by
  have hinv0 : MeshInv ⟨[], []⟩ := ⟨by simp, by simp, by simp⟩
  refine ⟨?_, ?_, ?_, ?_, ?_, ?_, ?_⟩
  · -- success invariants
    intro lines m h
    rw [ObjLoader_load] at h
    cases hl : processObjLines lines ⟨[], []⟩ with
    | error e =>
      rw [hl] at h
      cases h
    | ok mm =>
      rw [hl] at h
      dsimp only at h
      have hinv := processObjLines_inv hinv0 hl
      by_cases hpe : mm.positions_xyz.isEmpty
      · rw [if_pos hpe] at h
        cases h
      · rw [if_neg hpe] at h
        by_cases hie : mm.indices.isEmpty
        · rw [if_pos hie] at h
          cases h
        · rw [if_neg hie] at h
          simp only [Except.ok.injEq] at h
          subst h
          exact ⟨by simpa using hpe, by simpa using hie, hinv.2.1, hinv.2.2⟩
  · -- fan triangulation index count
    intro i0 vcount tail out hfan
    exact (fanTriangulate_spec hfan).1
  · -- no vertex lines
    intro lines hall
    cases hl : processObjLines lines ⟨[], []⟩ with
    | error e => exact ⟨e, load_error_of_loop_error hl⟩
    | ok mm =>
      have hc := (processObjLines_counts hl).1
      simp only [List.length_nil] at hc
      have hz : lines.countP (fun l => isVertexLineB l) = 0 :=
        List.countP_eq_zero.mpr (by simpa using hall)
      rw [hz] at hc
      have hpe : mm.positions_xyz.isEmpty = true := by
        rw [List.isEmpty_iff_length_eq_zero]
        omega
      refine ⟨"OBJ: no vertices loaded", ?_⟩
      rw [ObjLoader_load, hl]
      dsimp only
      rw [if_pos hpe]
  · -- no face lines
    intro lines hall
    cases hl : processObjLines lines ⟨[], []⟩ with
    | error e => exact ⟨e, load_error_of_loop_error hl⟩
    | ok mm =>
      have hie : mm.indices.isEmpty = true := by
        rw [(processObjLines_counts hl).2 hall]
        rfl
      by_cases hpe : mm.positions_xyz.isEmpty
      · refine ⟨"OBJ: no vertices loaded", ?_⟩
        rw [ObjLoader_load, hl]
        dsimp only
        rw [if_pos hpe]
      · refine ⟨"OBJ: no faces loaded (indices empty)", ?_⟩
        rw [ObjLoader_load, hl]
        dsimp only
        rw [if_neg hpe, if_pos hie]
  · -- a face with fewer than three vertices
    intro lines l hmem hf hshort
    obtain ⟨pre, suf, rfl⟩ := List.append_of_mem hmem
    exact load_error_of_line_error pre suf l
      (fun mm _ => processObjLine_face_error hf (Or.inl hshort))
  · -- a face with a 0 index
    intro lines l hmem hf hzero
    obtain ⟨tok, htok, hp0⟩ := hzero
    obtain ⟨pre, suf, rfl⟩ := List.append_of_mem hmem
    refine load_error_of_line_error pre suf l (fun mm _ => ?_)
    refine processObjLine_face_error hf (Or.inr ⟨tok, htok, 0, hp0, ?_⟩)
    unfold objIndexValid
    omega
  · -- a face index out of the range of the positions declared so far
    intro pre l suf hf hbad
    obtain ⟨tok, htok, a, hpa, hinv⟩ := hbad
    refine load_error_of_line_error pre suf l (fun mm hpre => ?_)
    have hc := (processObjLines_counts hpre).1
    simp only [List.length_nil] at hc
    have hveq : mm.positions_xyz.length / 3 =
        pre.countP (fun l2 => isVertexLineB l2) := by omega
    refine processObjLine_face_error hf (Or.inr ⟨tok, htok, a, hpa, ?_⟩)
    rw [hveq]
    exact hinv

/-- C10 witness: a three-vertex, one-triangle OBJ file loads successfully
with in-range triangle indices. -/
theorem claim10_witness :
    ObjLoader_load ["v 0 0 0".toList, "v 1 0 0".toList, "v 0 1 0".toList,
        "f 1 2 3".toList] =
      .ok ⟨[['0'], ['0'], ['0'], ['1'], ['0'], ['0'], ['0'], ['1'], ['0']],
           [0, 1, 2]⟩ ∧
    ([0, 1, 2] : List Nat).length % 3 = 0 ∧
    (∀ ix ∈ ([0, 1, 2] : List Nat),
       ix < ([['0'], ['0'], ['0'], ['1'], ['0'], ['0'], ['0'], ['1'], ['0']] :
         List (List Char)).length / 3) := by
  have hload : ObjLoader_load ["v 0 0 0".toList, "v 1 0 0".toList,
      "v 0 1 0".toList, "f 1 2 3".toList] =
      .ok ⟨[['0'], ['0'], ['0'], ['1'], ['0'], ['0'], ['0'], ['1'], ['0']],
           [0, 1, 2]⟩ := rfl
  have hc := claim10_obj_load_contract.1 _ _ hload
  exact ⟨hload, hc.2.2.1, hc.2.2.2⟩
